import Mathlib

/-
Shallow Lean embedding of the voice-agent repository (src/voice_agent.py,
src/tools.py, src/app.py, src/telegram_bot.py), together with theorems
checking the natural-language specification against it.

Conventions: Python machine floats are modelled as exact rationals; external
services (the reasoning engine, DuckDuckGo, Wikipedia, HTTP, the system
clock, Python's eval) are abstracted as oracle parameters returning
`Except`, where `Except.error` models a raised Python exception.
-/

namespace VoiceAgent

/-- Message roles of the conversation state (HumanMessage, AIMessage,
ToolMessage in the source). -/
inductive Role
  | user
  | assistant
  | tool
  deriving DecidableEq

/-- One entry of `conversation_state["messages"]` in `voice_agent.py`. -/
structure Msg where
  role : Role
  content : String
  deriving DecidableEq

/-- Python slice `xs[-k:]`. For `k = 0` Python's `xs[-0:]` is `xs[0:]`,
the whole list, so the slice only drops elements when `k > 0`. -/
def pyLastSlice {α : Type} (k : Nat) (xs : List α) : List α :=
  if k = 0 then xs else xs.drop (xs.length - k)

/-- History truncation of `VoiceAgent.generate_response_with_tools`
(voice_agent.py lines 147-148): if the list is longer than
`max_history * 2`, keep only `messages[-max_history * 2:]`. -/
def truncateMessages (maxHistory : Nat) (msgs : List Msg) : List Msg :=
  if msgs.length > maxHistory * 2 then pyLastSlice (maxHistory * 2) msgs else msgs

/-- Candidate test of the final-response scan (voice_agent.py lines 156-159):
an AIMessage with truthy (non-empty) content. -/
def isFinalCandidate (m : Msg) : Bool :=
  m.role == Role.assistant && m.content != ""

/-- Scan of `reversed(agent_messages)` for the last AIMessage with non-empty
content (voice_agent.py lines 155-159). -/
def lastAIContent (msgs : List Msg) : Option String :=
  (msgs.reverse.find? isFinalCandidate).map Msg.content

/-- Embedding of `VoiceAgent.generate_response_with_tools`
(voice_agent.py lines 133-173). The LangGraph agent `self.agent.invoke` is
abstracted as `engine`, which receives the (truncated) message list and
returns the full result message list, or `Except.error` for a raised
exception. The returned pair is (`conversation_state["messages"]` after the
call, returned response text). On success the code assigns
`self.conversation_state = result`; on exception the state keeps the user
message appended (and the truncation applied) before the `try` block. -/
def generateResponse (engine : List Msg → Except String (List Msg))
    (maxHistory : Nat) (state : List Msg) (userMessage : String) :
    List Msg × String :=
  let appended := state ++ [⟨Role.user, userMessage⟩]
  let truncated := truncateMessages maxHistory appended
  match engine truncated with
  | Except.ok result =>
      (result, (lastAIContent result).getD "Entschuldigung, ich konnte keine Antwort generieren.")
  | Except.error e => (truncated, "Entschuldigung, es gab einen Fehler: " ++ e)

/-- An engine that answers every invocation with a single assistant message
appended to its input, the shape a LangGraph agent produces for a turn that
uses no tools. -/
def engineAppendsOneAI : List Msg → Except String (List Msg) :=
  fun msgs => Except.ok (msgs ++ [⟨Role.assistant, "A"⟩])

/-- Stored message list after two completed turns with `max_history = 1`,
driven by `engineAppendsOneAI`. -/
def twoTurnState : List Msg :=
  (generateResponse engineAppendsOneAI 1
    (generateResponse engineAppendsOneAI 1 [] "u1").1 "u2").1

/-- An engine whose invocation raises, modelling a backend failure of the
reasoning engine. -/
def engineFails : List Msg → Except String (List Msg) :=
  fun _ => Except.error "boom"

/-- Python `try body except e: handler(e)` over the `Except` model of
raised exceptions. -/
def pyTry {ε α : Type} (body : Except ε α) (handler : ε → Except ε α) : Except ε α :=
  match body with
  | Except.ok a => Except.ok a
  | Except.error e => handler e

/-- Decides whether an `Except`-modelled tool call came back as an ordinary
text result rather than a raised exception. -/
def returnsText {ε : Type} : Except ε String → Bool
  | Except.ok _ => true
  | Except.error _ => false

/-- Characters of the regex character class
`[0-9+\-*/()., sqrt|sin|cos|tan|log|exp|pow]` in `calculator`
(tools.py line 179) other than the digits: the regex brackets denote a
character class, so the function names contribute only their individual
letters and the pipe character. -/
def calcAllowedChars : List Char :=
  ['+', '-', '*', '/', '(', ')', '.', ',', ' ',
   's', 'q', 'r', 't', '|', 'i', 'n', 'c', 'o', 'a', 'l', 'g', 'e', 'x', 'p', 'w']

/-- Membership in the calculator's regex character class. -/
def calcCharOk (c : Char) : Bool :=
  c.isDigit || calcAllowedChars.contains c

/-- Validation step of `calculator` (tools.py line 179):
`re.match(r'^[0-9+\-*/()., sqrt|sin|cos|tan|log|exp|pow]+$', expression.replace(' ', ''))`.
Spaces are removed first; the anchored `[...]+` then demands a non-empty
string all of whose characters lie in the character class. -/
def calculatorValidates (expression : String) : Bool :=
  let stripped := expression.toList.filter (fun c => c != ' ')
  !stripped.isEmpty && stripped.all calcCharOk

/-- Python `str.replace` over character lists: replace non-overlapping
occurrences of `pat` left to right. The first argument counts characters of
a recognized occurrence still to be skipped, so the recursion is structural
on the subject list. -/
def replaceAux (pat rep : List Char) : Nat → List Char → List Char
  | _, [] => []
  | skip + 1, _ :: cs => replaceAux pat rep skip cs
  | 0, c :: cs =>
      if !pat.isEmpty && pat.isPrefixOf (c :: cs) then
        rep ++ replaceAux pat rep (pat.length - 1) cs
      else
        c :: replaceAux pat rep 0 cs

/-- Python `s.replace(pat, rep)` for a non-empty pattern. -/
def pyReplace (s pat rep : String) : String :=
  String.mk (replaceAux pat.toList rep.toList 0 s.toList)

/-- Textual rewrites of `calculator` (tools.py lines 182-188), applied in
source order after validation. -/
def calcReplacements (s : String) : String :=
  pyReplace (pyReplace (pyReplace (pyReplace (pyReplace (pyReplace (pyReplace
    s "sqrt" "math.sqrt") "sin" "math.sin") "cos" "math.cos")
    "tan" "math.tan") "log" "math.log") "exp" "math.exp") "pow" "math.pow"

/-- Embedding of the `calculator` tool (tools.py lines 164-195). `evalFn`
abstracts Python's `eval` on the rewritten expression, returning the rendered
value or a raised exception. The invalid-expression `return` sits inside the
`try`, and the `except` converts any fault into text. -/
def calculator (evalFn : String → Except String String) (expression : String) :
    Except String String :=
  pyTry
    (if calculatorValidates expression then
      match evalFn (calcReplacements expression) with
      | Except.error e => Except.error e
      | Except.ok v =>
          Except.ok ("Berechnung: " ++ calcReplacements expression ++ " = " ++ v)
    else
      Except.ok "Ungültiger mathematischer Ausdruck.")
    (fun e => Except.ok ("Fehler bei der Berechnung: " ++ e))

/-- Names of the functions the specification's calculator allow-list admits. -/
def specFunctionNames : List String :=
  ["sqrt", "sin", "cos", "tan", "log", "exp", "pow"]

/-- Maximal runs of alphabetic characters of a string, accumulator first. -/
def letterRuns : List Char → List Char → List String
  | cur, [] => if cur.isEmpty then [] else [String.mk cur.reverse]
  | cur, c :: cs =>
      if c.isAlpha then letterRuns (c :: cur) cs
      else if cur.isEmpty then letterRuns [] cs
      else String.mk cur.reverse :: letterRuns [] cs

/-- Character admissible under the specification's calculator allow-list:
part of a numeric literal, one of the operators `+ - * / ^ ( )`, punctuation
of a literal, whitespace, or a letter of a named function. -/
def specCharOk (c : Char) : Bool :=
  c.isAlpha || c.isDigit ||
    (['+', '-', '*', '/', '^', '(', ')', '.', ' '].contains c)

/-- Modelled from the spec: the calculator input allow-list of §4.3 —
"numeric literals, `+ - * / ^ ( )`, and a named-function allow-list
{sqrt, sin, cos, tan, log, exp, pow}". An expression is admissible when
every character is admissible and every maximal alphabetic run is one of
the allow-listed function names. This is the spec-side comparison
definition for the validation claim; the code-side one is
`calculatorValidates`. -/
def specExprAllowed (s : String) : Bool :=
  s.toList.all specCharOk &&
    (letterRuns [] s.toList).all (fun r => specFunctionNames.contains r)

/-- One DuckDuckGo result dictionary, with the optional keys `web_search`
reads (`title`; `body` or `description`; `link`, `url` or `href`). -/
structure SearchResult where
  title : Option String
  body : Option String
  url : Option String

/-- Formatting of one search result inside the loop of `web_search`
(tools.py lines 39-47). -/
def formatSearchResult (idx : Nat) (r : SearchResult) : String :=
  let title := r.title.getD "Kein Titel"
  let body := r.body.getD "Keine Beschreibung"
  let url := r.url.getD "Keine URL"
  let descLine :=
    if body != "" && body != "Keine Beschreibung" then "   → " ++ body ++ "\n" else ""
  toString idx ++ ". " ++ title ++ "\n" ++ descLine ++ "   🔗 " ++ url ++ "\n\n"

/-- Header plus per-result formatting of `web_search` (tools.py lines 37-47). -/
def formatSearchResults (query : String) (results : List SearchResult) : String :=
  "Ich habe " ++ toString results.length ++ " Ergebnisse für \x27" ++ query ++
    "\x27 gefunden:\n\n" ++
    String.join ((results.enumFrom 1).map (fun p => formatSearchResult p.1 p.2))

/-- Embedding of the `web_search` tool (tools.py lines 15-54). `ddgsText`
abstracts `DDGS().text(query, max_results=...)`. -/
def web_search (ddgsText : String → Nat → Except String (List SearchResult))
    (query : String) (maxResults : Nat) : Except String String :=
  pyTry
    (match ddgsText query maxResults with
    | Except.error e => Except.error e
    | Except.ok results =>
        if results.isEmpty then
          Except.ok "Keine Suchergebnisse gefunden. Versuche eine andere Formulierung oder spezifischere Suchbegriffe."
        else
          Except.ok (formatSearchResults query results))
    (fun e =>
      Except.ok ("Die Websuche hatte ein Problem (" ++ e ++
        "). Ich kann trotzdem versuchen, mit anderen Informationsquellen weiterzuhelfen."))

/-- Exceptions `wikipedia.summary` may raise, as handled by the three
`except` clauses of `wikipedia_search` (tools.py lines 78-86). -/
inductive WikiErr
  | disambiguation (options : List String)
  | pageError
  | other (msg : String)

/-- Embedding of the `wikipedia_search` tool (tools.py lines 57-86).
`summaryFn` abstracts `wikipedia.summary(query, sentences=...)`. -/
def wikipedia_search (summaryFn : String → Nat → Except WikiErr String)
    (query : String) (sentences : Nat) : Except WikiErr String :=
  pyTry
    (match summaryFn query sentences with
    | Except.error e => Except.error e
    | Except.ok s =>
        Except.ok ("Wikipedia-Information zu \x27" ++ query ++ "\x27:\n\n" ++ s))
    (fun e =>
      match e with
      | WikiErr.disambiguation options =>
          Except.ok ("Mehrere Artikel gefunden. Bitte präzisiere: " ++
            String.intercalate ", " (options.take 5))
      | WikiErr.pageError =>
          Except.ok ("Kein Wikipedia-Artikel zu \x27" ++ query ++ "\x27 gefunden.")
      | WikiErr.other msg =>
          Except.ok ("Fehler bei Wikipedia-Suche: " ++ msg))

/-- Exceptions of `fetch_website`, split as its two `except` clauses are
(tools.py lines 126-130): `requests.exceptions.RequestException` (including
`raise_for_status`) versus anything else. -/
inductive FetchErr
  | requestError (msg : String)
  | otherError (msg : String)

/-- Whitespace collapse of `fetch_website` (tools.py lines 116-118): split
into lines, strip, split on double spaces, strip, rejoin the non-empty
chunks with single spaces. -/
def collapseWhitespace (text : String) : String :=
  let lines := (text.splitOn "\n").map String.trim
  let chunks := (lines.flatMap (fun line => (line.splitOn "  ").map String.trim))
  String.intercalate " " (chunks.filter (fun c => c != ""))

/-- Length cap of `fetch_website` (tools.py lines 120-122): over 2000
characters, truncate and append an ellipsis marker. -/
def truncateText (text : String) : String :=
  if text.length > 2000 then String.mk (text.toList.take 2000) ++ "..." else text

/-- Embedding of the `fetch_website` tool (tools.py lines 89-130).
`httpGetText` abstracts `requests.get(...).text` together with
`raise_for_status` (an HTTP error status raises `FetchErr.requestError`);
`getText` abstracts BeautifulSoup's markup stripping `soup.get_text()` after
script/style removal. -/
def fetch_website (httpGetText : String → Except FetchErr String)
    (getText : String → String) (url : String) : Except FetchErr String :=
  pyTry
    (match httpGetText url with
    | Except.error e => Except.error e
    | Except.ok body =>
        Except.ok ("Inhalt von " ++ url ++ ":\n\n" ++
          truncateText (collapseWhitespace (getText body))))
    (fun e =>
      match e with
      | FetchErr.requestError msg =>
          Except.ok ("Fehler beim Abrufen der Website: " ++ msg)
      | FetchErr.otherError msg =>
          Except.ok ("Fehler beim Verarbeiten der Website: " ++ msg))

/-- Value of Python's `datetime.now(ZoneInfo(tz))` as `get_current_time`
consumes it: `weekday()` is guaranteed in 0..6 and `month` in 1..12, so the
indexing into the 7-entry weekday list and the 13-entry month list is safe. -/
structure PyDateTime where
  weekday : Fin 7
  day : Nat
  month : Fin 13
  year : Nat
  hms : String

/-- German weekday names of `get_current_time` (tools.py line 148). -/
def weekdaysDe : List String :=
  ["Montag", "Dienstag", "Mittwoch", "Donnerstag", "Freitag", "Samstag", "Sonntag"]

/-- German month names of `get_current_time` (tools.py lines 149-150); the
leading empty entry makes the list 1-indexed by month number. -/
def monthsDe : List String :=
  ["", "Januar", "Februar", "März", "April", "Mai", "Juni",
   "Juli", "August", "September", "Oktober", "November", "Dezember"]

/-- Embedding of the `get_current_time` tool (tools.py lines 133-161).
`nowInZone` abstracts `datetime.now(ZoneInfo(timezone))`, raising for an
unknown timezone; `nowLocal` abstracts the already formatted
`datetime.now().strftime('%d.%m.%Y %H:%M:%S')` of the fallback branch. -/
def get_current_time (nowInZone : String → Except String PyDateTime)
    (nowLocal : String) (timezone : String) : Except String String :=
  pyTry
    (match nowInZone timezone with
    | Except.error e => Except.error e
    | Except.ok now =>
        Except.ok ("Aktuelle Zeit (" ++ timezone ++ "): " ++
          weekdaysDe.get ⟨now.weekday.val, now.weekday.isLt⟩ ++ ", " ++
          toString now.day ++ ". " ++
          monthsDe.get ⟨now.month.val, now.month.isLt⟩ ++ " " ++
          toString now.year ++ ", " ++ now.hms ++ " Uhr"))
    (fun _ => Except.ok ("Aktuelle Zeit: " ++ nowLocal ++ " Uhr"))

/-- One second-order section of the cascaded IIR filter
`scipy.signal.butter(10, 100, 'hp', fs=sample_rate, output='sos')` in
`reduce_noise` (app.py line 39). scipy normalizes `a0 = 1`, leaving five
free coefficients per section; the concrete values depend on the sample
rate and are irrational, so they stay symbolic here. -/
structure SOSection where
  b0 : ℚ
  b1 : ℚ
  b2 : ℚ
  a1 : ℚ
  a2 : ℚ
  deriving DecidableEq

/-- One second-order section run in direct form II transposed, the scheme
`scipy.signal.sosfilt` implements: `y = b0*x + z1`, then
`z1 := b1*x + z2 - a1*y` and `z2 := b2*x - a2*y`, with state initialized
to zero. -/
def sosSectionFilter (s : SOSection) : ℚ × ℚ → List ℚ → List ℚ
  | _, [] => []
  | st, x :: xs =>
      let y := s.b0 * x + st.1
      y :: sosSectionFilter s (s.b1 * x + st.2 - s.a1 * y, s.b2 * x - s.a2 * y) xs

/-- Cascade of second-order sections: `scipy.signal.sosfilt(sos, audio_data)`
(app.py line 40), applying each section in turn over the whole signal. -/
def sosfilt : List SOSection → List ℚ → List ℚ
  | [], xs => xs
  | s :: rest, xs => sosfilt rest (sosSectionFilter s (0, 0) xs)

/-- Peak amplitude `np.abs(signal).max()` over a possibly empty list, with 0
for the empty list (numpy itself raises on an empty array, so the theorems
below only quantify over non-empty buffers). -/
def peak : List ℚ → ℚ
  | [] => 0
  | x :: xs => max |x| (peak xs)

/-- Embedding of `reduce_noise` (app.py lines 31-46): high-pass filter the
buffer, then divide by the peak of the *filtered* signal when that peak is
positive, else pass the filtered signal through. -/
def reduce_noise (sos : List SOSection) (audioData : List ℚ) : List ℚ :=
  let filtered := sosfilt sos audioData
  if 0 < peak filtered then filtered.map (fun x => x / peak filtered) else filtered

/-- Stages a raw voice input passes through. -/
inductive PipelineStep
  | preprocess
  | transcribe
  | reason
  | synthesize
  deriving DecidableEq

/-- Stage sequence of the Gradio handler `process_audio` (app.py lines
49-106): `reduce_noise`, then `agent.process`, which runs `transcribe`,
`generate_response_with_tools`, `text_to_speech` (voice_agent.py lines
203-234). -/
def processAudioSteps : List PipelineStep :=
  [PipelineStep.preprocess, PipelineStep.transcribe,
   PipelineStep.reason, PipelineStep.synthesize]

/-- Stage sequence of the Telegram handler
`TelegramVoiceBot.handle_voice_message` (telegram_bot.py lines 140-186): the
downloaded voice file goes straight into `agent.process`; no preprocessing
call appears on this path. -/
def handleVoiceMessageSteps : List PipelineStep :=
  [PipelineStep.transcribe, PipelineStep.reason, PipelineStep.synthesize]

/-- The raw-audio entry channels of the repository. -/
def channelVoiceTraces : List (List PipelineStep) :=
  [processAudioSteps, handleVoiceMessageSteps]

/-- Decides that no transcription stage occurs before the first
preprocessing stage of a trace. -/
def preprocessedBeforeTranscription (steps : List PipelineStep) : Bool :=
  (steps.takeWhile (fun s => s != PipelineStep.preprocess)).all
    (fun s => s != PipelineStep.transcribe)

/-- One reply of the reasoning engine: a final answer, or a tool-call
request. -/
inductive EngineStep
  | finalAnswer (text : String)
  | toolRequest (name : String) (args : String)

/-- Tool-request discriminator for `EngineStep`. -/
def EngineStep.isToolRequest : EngineStep → Bool
  | EngineStep.toolRequest _ _ => true
  | EngineStep.finalAnswer _ => false

/-- Fallback answer the loop returns when the iteration bound is exhausted;
in the repository the exhaustion surfaces as an exception of `agent.invoke`
that `generate_response_with_tools` converts to its degraded answer text. -/
def loopFallback : String := "Entschuldigung, es gab einen Fehler: Agent stopped due to max iterations."

/-- Modelled from the spec: the ReAct reasoning loop of §4.4. The loop body
itself is not in src/ — `create_react_agent` (voice_agent.py lines 106-110)
delegates it to the LangGraph library — so it is modelled from the spec's
words: invoke the engine; on a tool request execute the matching tool,
append a tool-result message and re-invoke; on a final answer append the
assistant message; stop with a graceful fallback answer when the fixed
iteration bound is exhausted. The engine is indexed by its invocation count
so stubs can change behaviour between invocations. Returns the extended
history, the answer text, and the number of tool executions performed. -/
def runReasoningLoop (engine : Nat → List Msg → EngineStep)
    (tools : String → String → String) :
    Nat → Nat → List Msg → List Msg × String × Nat
  | 0, _, history => (history, loopFallback, 0)
  | fuel + 1, k, history =>
      match engine k history with
      | EngineStep.finalAnswer text =>
          (history ++ [⟨Role.assistant, text⟩], text, 0)
      | EngineStep.toolRequest name args =>
          let result := runReasoningLoop engine tools fuel (k + 1)
            (history ++ [⟨Role.tool, tools name args⟩])
          (result.1, result.2.1, result.2.2 + 1)

/-- Modelled from the spec: one turn of §4.4 — append the user message,
truncate the history, then run the bounded reasoning loop. -/
def processTurn (engine : Nat → List Msg → EngineStep)
    (tools : String → String → String) (maxIterations maxHistory : Nat)
    (session : List Msg) (userMessage : String) : List Msg × String × Nat :=
  runReasoningLoop engine tools maxIterations 0
    (truncateMessages maxHistory (session ++ [⟨Role.user, userMessage⟩]))

/-- Engine stub that requests exactly one tool call on its first invocation
and returns a final answer on the next. -/
def stubEngine : Nat → List Msg → EngineStep :=
  fun k _ =>
    if k = 0 then EngineStep.toolRequest "calculator" "2 + 2"
    else EngineStep.finalAnswer "Vier."

/-- Engine stub that requests a tool call on every invocation. -/
def alwaysToolEngine : Nat → List Msg → EngineStep :=
  fun _ _ => EngineStep.toolRequest "t" "x"

/-- Tool registry stub returning a constant result text. -/
def constTools : String → String → String := fun _ _ => "r"

/-- Result triple of the Gradio text handler: the chat display history, the
agent session's message list, and how many times the reasoning engine ran. -/
structure TextChatResult where
  chatHistory : List (String × String)
  session : List Msg
  engineCalls : Nat
  deriving DecidableEq

/-- Embedding of the Gradio text entry point `text_chat` (app.py lines
121-148): a falsy (empty) message returns the chat history untouched before
any agent work; otherwise `agent.chat` — i.e.
`generate_response_with_tools` with the default `max_history = 10` — runs
once and the pair is appended to the chat display history. In this
embedding `generateResponse` is total (it converts engine faults to text
itself), so the handler's outer `except` path is not reachable. -/
def text_chat (engine : List Msg → Except String (List Msg)) (message : String)
    (chatHistory : List (String × String)) (session : List Msg) : TextChatResult :=
  if message = "" then ⟨chatHistory, session, 0⟩
  else
    let result := generateResponse engine 10 session message
    ⟨chatHistory ++ [(message, result.2)], result.1, 1⟩

/-- Demonstration message list for witnesses. -/
def demoMsgs : List Msg := [⟨Role.user, "hallo"⟩]

/-- Spy evaluation oracle recording the expression Python's `eval` would
receive. -/
def evalSpy : String → Except String String :=
  fun s => Except.ok ("EVAL(" ++ s ++ ")")

theorem pyLastSlice_suffix {α : Type} (k : Nat) (xs : List α) :
    (pyLastSlice k xs).IsSuffix xs := by
  unfold pyLastSlice
  by_cases hk : k = 0
  · simp [hk]
  · simp [hk, List.drop_suffix]

theorem pyLastSlice_length {α : Type} (k : Nat) (xs : List α) (hk : k ≠ 0) :
    (pyLastSlice k xs).length = min k xs.length := by
  unfold pyLastSlice
  simp [hk]
  omega

/-- C1. The claim "the session's stored message list length never exceeds
2 * max_history, and the retained prefix begins exactly at a turn boundary"
fails on the code: with `max_history = 1` and an engine that appends one
assistant message per invocation, after the second completed turn the
stored list has 3 > 2*1 messages and begins with an assistant message.
The code truncates only between appending the user message and invoking the
engine, with a plain suffix slice. -/
theorem session_bound_counterexample :
    2 * 1 < twoTurnState.length ∧
    twoTurnState.head?.map Msg.role = some Role.assistant := by
  decide

/-- C1 (amended). What the code guarantees instead: for `max_history ≥ 1`,
the truncation step itself — applied immediately after appending the user
message, before the engine call — leaves at most `2 * max_history` messages
and keeps a plain suffix of the list (so the history handed to the engine
obeys the bound, while the end-of-turn stored list, which is the engine's
result, may exceed it and need not start at a turn boundary). -/
theorem truncation_suffix_bound (maxHistory : Nat) (msgs : List Msg)
    (h : 1 ≤ maxHistory) :
    (truncateMessages maxHistory msgs).length ≤ 2 * maxHistory ∧
    (truncateMessages maxHistory msgs).IsSuffix msgs := by
  unfold truncateMessages
  by_cases hlen : msgs.length > maxHistory * 2
  · have hk : maxHistory * 2 ≠ 0 := by omega
    simp only [hlen, if_true]
    refine ⟨?_, pyLastSlice_suffix _ _⟩
    rw [pyLastSlice_length _ _ hk]
    omega
  · simp only [hlen, if_false]
    exact ⟨by omega, List.suffix_refl msgs⟩

/-- C1 (amended) witness. -/
theorem truncation_suffix_bound_witness :
    1 ≤ 10 ∧
    ((truncateMessages 10 demoMsgs).length ≤ 2 * 10 ∧
      (truncateMessages 10 demoMsgs).IsSuffix demoMsgs) :=
  ⟨by decide, truncation_suffix_bound 10 demoMsgs (by decide)⟩

/-- C2. The claim that calculator input is validated against the token
allow-list (numeric literals, `+ - * / ^ ( )`, and the function names
{sqrt, sin, cos, tan, log, exp, pow}) before evaluation fails on the code:
the regex of tools.py line 179 places the function names inside a character
class, so the check is per character. "exec" is outside the spec's
allow-list yet passes the code's validation and is handed to `eval`
unchanged; "2^3" is inside the spec's allow-list yet the code rejects it,
because the class has no caret; "2 + 2", "sqrt(16)" and "import os" behave
as documented. -/
theorem calculator_validation_divergence :
    calculatorValidates "exec" = true ∧
    specExprAllowed "exec" = false ∧
    calculator evalSpy "exec" = Except.ok "Berechnung: exec = EVAL(exec)" ∧
    calculatorValidates "2^3" = false ∧
    specExprAllowed "2^3" = true ∧
    calculator evalSpy "2^3" = Except.ok "Ungültiger mathematischer Ausdruck." ∧
    calculatorValidates "2 + 2" = true ∧
    calculatorValidates "sqrt(16)" = true ∧
    calculatorValidates "import os" = false :=
  ⟨by decide, by decide, by rfl, by decide, by decide, by rfl,
   by decide, by decide, by decide⟩

/-- C3. The claim that a failed reasoning-engine call leaves the session
history exactly as it was fails on the code: the user message is appended
(and truncation applied) before the `try` block, so after a failing call on
an empty session the stored history is no longer empty. -/
theorem failed_call_mutates_counterexample :
    (generateResponse engineFails 10 [] "Hallo").1 ≠ ([] : List Msg) := by
  decide

/-- C3 (amended). What the code guarantees instead: when the engine call
raises, no exception escapes `generate_response_with_tools` — the degraded
text answer "Entschuldigung, es gab einen Fehler: …" is returned — and the
stored history is exactly the pre-call state with the new user message
appended and the truncation applied; no engine or assistant message is
added by the failed call. -/
theorem engine_failure_state (e : String) (maxHistory : Nat) (state : List Msg)
    (userMessage : String) :
    generateResponse (fun _ => Except.error e) maxHistory state userMessage =
      (truncateMessages maxHistory (state ++ [⟨Role.user, userMessage⟩]),
       "Entschuldigung, es gab einen Fehler: " ++ e) := rfl

/-- C6. The claim that preprocessing runs before transcription on every
channel fails on the code: the Telegram voice channel
(`handle_voice_message`) passes the downloaded file straight to
`agent.process`, so its stage trace transcribes without any preprocessing
stage. -/
theorem preprocessing_claim_counterexample :
    ¬ ∀ t ∈ channelVoiceTraces, preprocessedBeforeTranscription t = true := by
  decide

/-- C6 (amended). What the code guarantees instead: in the Gradio web
channel (`process_audio`) preprocessing always precedes transcription,
while the Telegram voice channel transcribes raw audio and contains no
preprocessing stage at all. -/
theorem channel_preprocessing_status :
    preprocessedBeforeTranscription processAudioSteps = true ∧
    PipelineStep.transcribe ∈ handleVoiceMessageSteps ∧
    PipelineStep.preprocess ∉ handleVoiceMessageSteps := by
  decide

/-- C10. Empty text input is rejected by the text entry point before any
session state is touched: the chat history and the session message list are
returned unchanged and the reasoning engine is invoked zero times. -/
theorem empty_text_rejected (engine : List Msg → Except String (List Msg))
    (chatHistory : List (String × String)) (session : List Msg) :
    text_chat engine "" chatHistory session = ⟨chatHistory, session, 0⟩ := rfl

theorem sosSectionFilter_length (s : SOSection) (st : ℚ × ℚ) (xs : List ℚ) :
    (sosSectionFilter s st xs).length = xs.length := by
  induction xs generalizing st with
  | nil => rfl
  | cons x xs ih => simp [sosSectionFilter, ih]

theorem sosfilt_length (sos : List SOSection) (xs : List ℚ) :
    (sosfilt sos xs).length = xs.length := by
  induction sos generalizing xs with
  | nil => rfl
  | cons s rest ih => rw [sosfilt, ih, sosSectionFilter_length]

theorem sosSectionFilter_zeros (s : SOSection) (xs : List ℚ)
    (h : ∀ x ∈ xs, x = 0) : sosSectionFilter s (0, 0) xs = xs := by
  induction xs with
  | nil => rfl
  | cons x xs ih =>
      have hx : x = 0 := h x (by simp)
      have hxs : ∀ y ∈ xs, y = 0 := fun y hy => h y (by simp [hy])
      subst hx
      show (s.b0 * 0 + 0) :: sosSectionFilter s
          (s.b1 * 0 + 0 - s.a1 * (s.b0 * 0 + 0),
           s.b2 * 0 - s.a2 * (s.b0 * 0 + 0)) xs = 0 :: xs
      rw [show s.b0 * 0 + 0 = (0 : ℚ) by ring]
      rw [show s.b1 * 0 + 0 - s.a1 * 0 = (0 : ℚ) by ring]
      rw [show s.b2 * 0 - s.a2 * 0 = (0 : ℚ) by ring]
      rw [ih hxs]

theorem sosfilt_zeros (sos : List SOSection) (xs : List ℚ)
    (h : ∀ x ∈ xs, x = 0) : sosfilt sos xs = xs := by
  induction sos with
  | nil => rfl
  | cons s rest ih => rw [sosfilt, sosSectionFilter_zeros s xs h, ih]

theorem sosSectionFilter_exists_ne_zero (s : SOSection) (hb : s.b0 ≠ 0)
    (xs : List ℚ) (h : ∃ x ∈ xs, x ≠ 0) :
    ∃ y ∈ sosSectionFilter s (0, 0) xs, y ≠ 0 := by
  induction xs with
  | nil => simp at h
  | cons x xs ih =>
      by_cases hx : x = 0
      · subst hx
        have hxs : ∃ z ∈ xs, z ≠ 0 := by
          obtain ⟨z, hz, hzne⟩ := h
          rcases List.mem_cons.mp hz with hz0 | hztail
          · exact absurd hz0.symm (Ne.symm hzne)
          · exact ⟨z, hztail, hzne⟩
        obtain ⟨y, hy, hyne⟩ := ih hxs
        refine ⟨y, ?_, hyne⟩
        simp [sosSectionFilter]
        right
        simpa using hy
      · refine ⟨s.b0 * x + 0, ?_, by simpa using mul_ne_zero hb hx⟩
        simp [sosSectionFilter]

theorem sosfilt_exists_ne_zero (sos : List SOSection)
    (hb : ∀ s ∈ sos, s.b0 ≠ 0) (xs : List ℚ) (h : ∃ x ∈ xs, x ≠ 0) :
    ∃ y ∈ sosfilt sos xs, y ≠ 0 := by
  induction sos generalizing xs with
  | nil => exact h
  | cons s rest ih =>
      rw [sosfilt]
      exact ih (fun t ht => hb t (List.mem_cons_of_mem s ht))
        (sosSectionFilter s (0, 0) xs)
        (sosSectionFilter_exists_ne_zero s (hb s (List.mem_cons_self s rest)) xs h)

theorem peak_nonneg (xs : List ℚ) : 0 ≤ peak xs := by
  induction xs with
  | nil => exact le_refl 0
  | cons x xs ih => exact le_trans ih (le_max_right _ _)

theorem le_peak_of_mem {x : ℚ} {xs : List ℚ} (h : x ∈ xs) : |x| ≤ peak xs := by
  induction xs with
  | nil => simp at h
  | cons y ys ih =>
      rcases List.mem_cons.mp h with h0 | htail
      · subst h0
        exact le_max_left _ _
      · exact le_trans (ih htail) (le_max_right _ _)

theorem peak_pos {xs : List ℚ} (h : ∃ x ∈ xs, x ≠ 0) : 0 < peak xs := by
  obtain ⟨x, hx, hxne⟩ := h
  exact lt_of_lt_of_le (abs_pos.mpr hxne) (le_peak_of_mem hx)

theorem peak_zeros {xs : List ℚ} (h : ∀ x ∈ xs, x = 0) : peak xs = 0 := by
  induction xs with
  | nil => rfl
  | cons x xs ih =>
      have hx : x = 0 := h x (by simp)
      have hxs : ∀ y ∈ xs, y = 0 := fun y hy => h y (by simp [hy])
      subst hx
      simp [peak, ih hxs]

theorem peak_map_div {xs : List ℚ} {p : ℚ} (hp : 0 < p) :
    peak (xs.map (fun x => x / p)) = peak xs / p := by
  induction xs with
  | nil => simp [peak]
  | cons x xs ih =>
      have hmono : Monotone (fun a : ℚ => a / p) :=
        fun a b hab => (div_le_div_iff_of_pos_right hp).mpr hab
      simp only [List.map_cons, peak, ih]
      rw [abs_div, abs_of_pos hp, ← hmono.map_max]

/-- C7. On an all-zero (silent) buffer, `reduce_noise` returns the input
unchanged for every filter-coefficient set (hence every sample rate): the
cascaded filter maps zeros to zeros, the filtered peak is 0, so the
normalization branch — the division by the peak — is never taken. The
buffer is required non-empty because numpy's `max` of an empty array
raises. -/
theorem silence_passthrough (sos : List SOSection) (xs : List ℚ)
    (_hne : xs ≠ []) (h : ∀ x ∈ xs, x = 0) :
    reduce_noise sos xs = xs ∧ ¬ 0 < peak (sosfilt sos xs) := by
  have hf : sosfilt sos xs = xs := sosfilt_zeros sos xs h
  have hpk : peak (sosfilt sos xs) = 0 := by rw [hf]; exact peak_zeros h
  constructor
  · rw [reduce_noise]
    simp only [hpk, lt_irrefl, if_false]
    exact hf
  · rw [hpk]
    exact lt_irrefl 0

/-- C7 witness. -/
theorem silence_passthrough_witness :
    (([0, 0, 0] : List ℚ) ≠ []) ∧ (∀ x ∈ ([0, 0, 0] : List ℚ), x = 0) ∧
    (reduce_noise [⟨1, 2, 3, 4, 5⟩] [0, 0, 0] = [0, 0, 0] ∧
      ¬ 0 < peak (sosfilt [⟨1, 2, 3, 4, 5⟩] [0, 0, 0])) :=
  ⟨by decide, by decide,
   silence_passthrough [⟨1, 2, 3, 4, 5⟩] [0, 0, 0] (by decide) (by decide)⟩

/-- C8. On a buffer with at least one non-zero sample, `reduce_noise`
returns a buffer of the same length whose samples all lie in [-1, 1] and
whose peak is exactly 1 (exact arithmetic; "approximately 1.0 within
tolerance" in floating point). The hypothesis that every section's leading
numerator coefficient is non-zero holds for the Butterworth high-pass
sections the code requests; it makes the filtered signal of a non-silent
buffer non-silent, so the peak divided by is positive. -/
theorem normalization_props (sos : List SOSection) (xs : List ℚ)
    (hb : ∀ s ∈ sos, s.b0 ≠ 0) (h : ∃ x ∈ xs, x ≠ 0) :
    (reduce_noise sos xs).length = xs.length ∧
    (∀ v ∈ reduce_noise sos xs, |v| ≤ 1) ∧
    peak (reduce_noise sos xs) = 1 := by
  have hnz : ∃ y ∈ sosfilt sos xs, y ≠ 0 := sosfilt_exists_ne_zero sos hb xs h
  have hp : 0 < peak (sosfilt sos xs) := peak_pos hnz
  have hred : reduce_noise sos xs =
      (sosfilt sos xs).map (fun x => x / peak (sosfilt sos xs)) := by
    rw [reduce_noise]
    simp only [hp, if_true]
  have hpeak1 : peak (reduce_noise sos xs) = 1 := by
    rw [hred, peak_map_div hp, div_self (ne_of_gt hp)]
  refine ⟨?_, ?_, hpeak1⟩
  · rw [hred, List.length_map, sosfilt_length]
  · intro v hv
    exact le_of_le_of_eq (le_peak_of_mem hv) hpeak1

theorem truncate_concat_getLast (maxHistory : Nat) (h : 1 ≤ maxHistory)
    (xs : List Msg) (m : Msg) :
    (truncateMessages maxHistory (xs ++ [m])).getLast? = some m := by
  unfold truncateMessages
  by_cases hlen : (xs ++ [m]).length > maxHistory * 2
  · have hk : maxHistory * 2 ≠ 0 := by omega
    simp only [hlen, if_true]
    unfold pyLastSlice
    simp only [hk, if_false]
    rw [List.drop_append_eq_append_drop]
    have h0 : (xs ++ [m]).length - maxHistory * 2 - xs.length = 0 := by
      simp only [List.length_append, List.length_singleton]
      omega
    rw [h0, List.drop_zero, List.getLast?_concat]
  · simp only [hlen, if_false]
    exact List.getLast?_concat _

/-- C4. The reasoning loop is bounded: for every engine and tool registry it
performs at most `fuel` tool executions (so it terminates within the fixed
iteration bound), and for an engine that requests a tool call on every
invocation it returns the graceful fallback answer once the bound is
exhausted, instead of looping. -/
theorem reasoning_loop_bounded (engine : Nat → List Msg → EngineStep)
    (tools : String → String → String) (fuel k : Nat) (history : List Msg) :
    (runReasoningLoop engine tools fuel k history).2.2 ≤ fuel ∧
    ((∀ i h, (engine i h).isToolRequest = true) →
      (runReasoningLoop engine tools fuel k history).2.1 = loopFallback) := by
  induction fuel generalizing k history with
  | zero => exact ⟨Nat.le_refl 0, fun _ => rfl⟩
  | succ f ih =>
      cases hE : engine k history with
      | finalAnswer text =>
          constructor
          · simp [runReasoningLoop, hE]
          · intro hall
            have hcontra := hall k history
            rw [hE] at hcontra
            simp [EngineStep.isToolRequest] at hcontra
      | toolRequest name args =>
          have ihh := ih (k + 1) (history ++ [⟨Role.tool, tools name args⟩])
          constructor
          · simp only [runReasoningLoop, hE]
            exact Nat.succ_le_succ ihh.1
          · intro hall
            simp only [runReasoningLoop, hE]
            exact ihh.2 hall

/-- C4 witness. -/
theorem reasoning_loop_bounded_witness :
    (runReasoningLoop alwaysToolEngine constTools 3 0 []).2.2 ≤ 3 ∧
    (runReasoningLoop alwaysToolEngine constTools 3 0 []).2.1 = loopFallback :=
  ⟨(reasoning_loop_bounded alwaysToolEngine constTools 3 0 []).1,
   (reasoning_loop_bounded alwaysToolEngine constTools 3 0 []).2 (fun _ _ => rfl)⟩

/-- C5. With an engine stub that first requests one tool call and then
returns a final answer, one turn performs exactly one tool execution and
the stored history at the end of the turn is the truncated prefix — which
ends with the user message — followed by the tool-result message and the
final assistant message: the three messages of the claim, in order. -/
theorem stub_engine_single_tool_turn (tools : String → String → String)
    (maxHistory fuel : Nat) (prior : List Msg) (userMessage : String)
    (hmh : 1 ≤ maxHistory) (hfuel : 2 ≤ fuel) :
    processTurn stubEngine tools fuel maxHistory prior userMessage =
      (truncateMessages maxHistory (prior ++ [⟨Role.user, userMessage⟩]) ++
        [⟨Role.tool, tools "calculator" "2 + 2"⟩, ⟨Role.assistant, "Vier."⟩],
       "Vier.", 1) ∧
    (truncateMessages maxHistory (prior ++ [⟨Role.user, userMessage⟩])).getLast? =
      some ⟨Role.user, userMessage⟩ := by
  obtain ⟨f, rfl⟩ : ∃ f, fuel = f + 2 := ⟨fuel - 2, by omega⟩
  refine ⟨?_, truncate_concat_getLast maxHistory hmh prior _⟩
  unfold processTurn
  simp [runReasoningLoop, stubEngine]

/-- C5 witness. -/
theorem stub_engine_single_tool_turn_witness :
    1 ≤ 10 ∧ 2 ≤ 25 ∧
    ((processTurn stubEngine constTools 25 10 [] "Hallo" =
        (truncateMessages 10 ([] ++ [⟨Role.user, "Hallo"⟩]) ++
          [⟨Role.tool, constTools "calculator" "2 + 2"⟩, ⟨Role.assistant, "Vier."⟩],
         "Vier.", 1)) ∧
      (truncateMessages 10 ([] ++ [⟨Role.user, "Hallo"⟩])).getLast? =
        some ⟨Role.user, "Hallo"⟩) :=
  ⟨by decide, by decide,
   stub_engine_single_tool_turn constTools 10 25 [] "Hallo" (by decide) (by decide)⟩

/-- C9. Every registered tool returns a text result on every input and for
every behaviour of its external dependency, including a raising one: the
body of each tool is wrapped so that any internal fault is converted into a
descriptive text result, and no exception crosses the tool boundary. -/
theorem tools_never_raise :
    (∀ (ddgsText : String → Nat → Except String (List SearchResult))
        (query : String) (maxResults : Nat),
        returnsText (web_search ddgsText query maxResults) = true) ∧
    (∀ (summaryFn : String → Nat → Except WikiErr String) (query : String)
        (sentences : Nat),
        returnsText (wikipedia_search summaryFn query sentences) = true) ∧
    (∀ (httpGetText : String → Except FetchErr String)
        (getText : String → String) (url : String),
        returnsText (fetch_website httpGetText getText url) = true) ∧
    (∀ (evalFn : String → Except String String) (expression : String),
        returnsText (calculator evalFn expression) = true) ∧
    (∀ (nowInZone : String → Except String PyDateTime) (nowLocal timezone : String),
        returnsText (get_current_time nowInZone nowLocal timezone) = true) := by
  refine ⟨?_, ?_, ?_, ?_, ?_⟩
  · intro d q n
    cases hd : d q n with
    | ok results =>
        cases hres : results.isEmpty <;>
          simp [web_search, pyTry, hd, hres, returnsText]
    | error e => simp [web_search, pyTry, hd, returnsText]
  · intro s q n
    cases hs : s q n with
    | ok v => simp [wikipedia_search, pyTry, hs, returnsText]
    | error e => cases e <;> simp [wikipedia_search, pyTry, hs, returnsText]
  · intro hg gt u
    cases hh : hg u with
    | ok b => simp [fetch_website, pyTry, hh, returnsText]
    | error e => cases e <;> simp [fetch_website, pyTry, hh, returnsText]
  · intro ev e
    by_cases hv : calculatorValidates e = true
    · cases hev : ev (calcReplacements e) with
      | ok v => simp [calculator, pyTry, hv, hev, returnsText]
      | error err => simp [calculator, pyTry, hv, hev, returnsText]
    · simp [calculator, pyTry, hv, returnsText]
  · intro nz nl tz
    cases hn : nz tz with
    | ok now => simp [get_current_time, pyTry, hn, returnsText]
    | error e => simp [get_current_time, pyTry, hn, returnsText]

/-- C8 witness. -/
theorem normalization_props_witness :
    (∀ s ∈ ([⟨1, 0, 0, 0, 0⟩] : List SOSection), s.b0 ≠ 0) ∧
    (∃ x ∈ ([1, 0] : List ℚ), x ≠ 0) ∧
    ((reduce_noise [⟨1, 0, 0, 0, 0⟩] [1, 0]).length = ([1, 0] : List ℚ).length ∧
      (∀ v ∈ reduce_noise [⟨1, 0, 0, 0, 0⟩] [1, 0], |v| ≤ 1) ∧
      peak (reduce_noise [⟨1, 0, 0, 0, 0⟩] [1, 0]) = 1) :=
  ⟨by decide, by decide,
   normalization_props [⟨1, 0, 0, 0, 0⟩] [1, 0] (by decide) (by decide)⟩

end VoiceAgent
